import Mathlib

/-!
Shallow embedding of the sot-tech/chihaya (mochi) tracker sources:
the bittorrent wire types, the HTTP frontend response writers, the
PostgreSQL peer store, and the varinterval middleware, together with
theorems checking the specification claims against them.

Bytes are modelled as natural numbers (with explicit bounds where the
code relies on them), byte strings as lists of naturals, and machine
integer overflow as explicit reduction modulo two to the word size.
-/

namespace BT

/-- Model of netip.Addr: either a 4-byte IPv4 address or a 16-byte IPv6
address, carrying its raw bytes. -/
inductive NetAddr where
  | v4 (bs : List Nat)
  | v6 (bs : List Nat)
deriving DecidableEq, Repr

/-- The 12-byte lead of an IPv4-mapped IPv6 address (::ffff:0:0/96). -/
def v4MappedLead : List Nat := [0, 0, 0, 0, 0, 0, 0, 0, 0, 0, 255, 255]

/-- netip.Addr.Unmap: an IPv4-mapped IPv6 address becomes the embedded
IPv4 address, anything else is unchanged. -/
def NetAddr.unmap : NetAddr → NetAddr
  | .v6 bs => if bs.take 12 = v4MappedLead then .v4 (bs.drop 12) else .v6 bs
  | a => a

/-- netip.Addr.AsSlice: the raw bytes of the address. -/
def NetAddr.asSlice : NetAddr → List Nat
  | .v4 bs => bs
  | .v6 bs => bs

/-- netip.Addr.BitLen. -/
def NetAddr.bitLen : NetAddr → Nat
  | .v4 _ => 32
  | .v6 _ => 128

/-- netip.Addr.Is6. -/
def NetAddr.is6 : NetAddr → Bool
  | .v4 _ => false
  | .v6 _ => true

/-- netip.AddrFromSlice: 4 bytes give an IPv4 address, 16 bytes an IPv6
address, any other length fails. -/
def addrFromSlice (bs : List Nat) : Option NetAddr :=
  if bs.length = 4 then some (.v4 bs)
  else if bs.length = 16 then some (.v6 bs)
  else none

/-- Wellformedness of an address: correct byte count, every byte below 256. -/
def NetAddr.valid : NetAddr → Prop
  | .v4 bs => bs.length = 4 ∧ ∀ b ∈ bs, b < 256
  | .v6 bs => bs.length = 16 ∧ ∀ b ∈ bs, b < 256

instance : DecidablePred NetAddr.valid := by
  intro a
  cases a <;> simp [NetAddr.valid] <;> infer_instance

/-- PeerIDLen is the length of the peer id field in bytes. -/
def PeerIDLen : Nat := 20

/-- NewPeerID creates a PeerID from a byte slice; it fails unless the
slice is exactly 20 bytes long. -/
def NewPeerID (b : List Nat) : Except String (List Nat) :=
  if b.length = PeerIDLen then .ok b else .error "peer ID must be 20 bytes"

/-- Peer represents the connection details of a peer: a 20-byte ID and
an address-port pair. -/
structure Peer where
  id : List Nat
  port : Nat
  addr : NetAddr
deriving DecidableEq, Repr

/-- binary.BigEndian.Uint16 of the first two bytes of a slice. -/
def uint16BE : List Nat → Nat
  | a :: b :: _ => 256 * a + b
  | _ => 0

/-- binary.BigEndian.PutUint16: the high byte then the low byte of a
16-bit value (byte casts truncate modulo 256). -/
def putUint16BE (p : Nat) : List Nat := [p / 256 % 256, p % 256]

/-- PeerMinimumLen: PeerID plus port plus an IPv4 address. -/
def PeerMinimumLen : Nat := PeerIDLen + 2 + 4

/-- Peer.RawString: the concatenation of the peer ID, the big-endian
port and the raw bytes of the unmapped address. -/
def Peer.RawString (p : Peer) : List Nat :=
  let ip := p.addr.unmap
  p.id ++ putUint16BE p.port ++ ip.asSlice

/-- NewPeer constructs a Peer from data serialized by Peer.RawString:
PeerID (20 bytes), port (2 bytes), IP (4 or 16 bytes). -/
def NewPeer (data : List Nat) : Except String Peer :=
  if data.length < PeerMinimumLen then .error "invalid peer data size"
  else
    match NewPeerID (data.take PeerIDLen) with
    | .error e => .error e
    | .ok pid =>
      match addrFromSlice (data.drop (PeerIDLen + 2)) with
      | some a =>
        .ok { id := pid, port := uint16BE (data.drop PeerIDLen), addr := a.unmap }
      | none => .error "invalid IP"

theorem addrFromSlice_asSlice (a : NetAddr) (hv : a.valid) :
    addrFromSlice a.asSlice = some a := by
  cases a with
  | v4 bs =>
    simp only [NetAddr.valid] at hv
    simp [addrFromSlice, NetAddr.asSlice, hv.1]
  | v6 bs =>
    simp only [NetAddr.valid] at hv
    simp [addrFromSlice, NetAddr.asSlice, hv.1]

theorem asSlice_length_valid (a : NetAddr) (hv : a.valid) :
    a.asSlice.length = 4 ∨ a.asSlice.length = 16 := by
  cases a with
  | v4 bs => exact Or.inl hv.1
  | v6 bs => exact Or.inr hv.1

/-- C9: for every Peer whose address is a valid unmapped IPv4 or IPv6
address (and whose ID has the mandatory 20 bytes and port fits 16 bits),
parsing its serialized form round-trips: NewPeer applied to RawString
succeeds and returns the same peer, with the same ID, address and port. -/
theorem newPeer_rawString_roundtrip (p : Peer) (hid : p.id.length = 20)
    (hport : p.port < 65536) (hv : p.addr.valid) (hun : p.addr.unmap = p.addr) :
    NewPeer p.RawString = .ok p := by
  obtain ⟨pid, pport, paddr⟩ := p
  simp only at hid hport hv hun
  have hslice : paddr.asSlice.length = 4 ∨ paddr.asSlice.length = 16 :=
    asSlice_length_valid paddr hv
  have hdata : Peer.RawString ⟨pid, pport, paddr⟩ =
      pid ++ (putUint16BE pport ++ paddr.asSlice) := by
    simp [Peer.RawString, hun, List.append_assoc]
  rw [NewPeer, hdata]
  have hlen : (pid ++ (putUint16BE pport ++ paddr.asSlice)).length =
      22 + paddr.asSlice.length := by
    simp [putUint16BE, hid]; omega
  have hnotshort : ¬ ((pid ++ (putUint16BE pport ++ paddr.asSlice)).length < PeerMinimumLen) := by
    rw [hlen]; simp [PeerMinimumLen, PeerIDLen]; omega
  rw [if_neg hnotshort]
  have htake : (pid ++ (putUint16BE pport ++ paddr.asSlice)).take PeerIDLen = pid := by
    have h20 : PeerIDLen = pid.length := by rw [hid]; rfl
    rw [h20, List.take_left]
  have hdrop20 : (pid ++ (putUint16BE pport ++ paddr.asSlice)).drop PeerIDLen =
      putUint16BE pport ++ paddr.asSlice := by
    have h20 : PeerIDLen = pid.length := by rw [hid]; rfl
    rw [h20, List.drop_left]
  have hdrop22 : (pid ++ (putUint16BE pport ++ paddr.asSlice)).drop (PeerIDLen + 2) =
      paddr.asSlice := by
    rw [← List.drop_drop 2 PeerIDLen, hdrop20]
    simp [putUint16BE]
  rw [htake, hdrop20, hdrop22]
  have hpid : NewPeerID pid = .ok pid := by simp [NewPeerID, hid, PeerIDLen]
  rw [hpid]
  rw [addrFromSlice_asSlice paddr hv]
  have hcons : putUint16BE pport ++ paddr.asSlice
      = (pport / 256 % 256) :: (pport % 256) :: paddr.asSlice := by
    simp [putUint16BE]
  have hport16 : uint16BE (putUint16BE pport ++ paddr.asSlice) = pport := by
    rw [hcons]
    show 256 * (pport / 256 % 256) + pport % 256 = pport
    omega
  simp [hport16, hun]

/-- A concrete peer used to witness the round-trip theorem. -/
def peerW : Peer :=
  { id := [1, 2, 3, 4, 5, 6, 7, 8, 9, 10, 11, 12, 13, 14, 15, 16, 17, 18, 19, 20],
    port := 6881,
    addr := .v4 [10, 11, 12, 1] }

/-- Witness for C9 at a concrete IPv4 peer. -/
theorem newPeer_rawString_roundtrip_witness : NewPeer peerW.RawString = .ok peerW :=
  newPeer_rawString_roundtrip peerW (by decide) (by decide) (by decide) (by decide)

/-- bittorrent.AnnounceResponse: the parameters used to create an
announce response. Durations (Interval, MinInterval) are int64
nanosecond counts, modelled as integers. -/
structure AnnounceResponse where
  compact : Bool
  complete : Nat
  incomplete : Nat
  interval : Int
  minInterval : Int
  ipv4Peers : List Peer
  ipv6Peers : List Peer

/-- bittorrent.Scrape: the state of one swarm inside a scrape response. -/
structure Scrape where
  infoHash : List Nat
  snatches : Nat
  complete : Nat
  incomplete : Nat
deriving DecidableEq, Repr

/-- bittorrent.ScrapeResponse: the per-infohash scrape results, required
by its documentation to be in the same order as the InfoHashes of the
corresponding ScrapeRequest. -/
structure ScrapeResponse where
  files : List Scrape
deriving DecidableEq, Repr

end BT

namespace Benc

/-- Digits accumulator for the decimal rendering of a natural number;
the first argument is fuel bounding the recursion depth. -/
def natDigitsCore : Nat → Nat → List Nat → List Nat
  | 0, _, acc => acc
  | _ + 1, 0, acc => acc
  | fuel + 1, n + 1, acc => natDigitsCore fuel ((n + 1) / 10) ((48 + (n + 1) % 10) :: acc)

/-- ASCII decimal digits of a natural number. -/
def natDigits (n : Nat) : List Nat :=
  if n = 0 then [48] else natDigitsCore n n []

/-- ASCII decimal digits of an integer, with a leading minus sign when
negative. -/
def intDigits (n : Int) : List Nat :=
  if n < 0 then 45 :: natDigits n.natAbs else natDigits n.toNat

/-- The bytes of an ASCII string literal. -/
def strBytes (s : String) : List Nat := s.data.map Char.toNat

/-- A bencode value: integer, byte string, list, or dictionary given as
an association list of byte-string keys (the representation of a Go map,
whose iteration order is irrelevant because the encoder sorts keys). -/
inductive BValue where
  | int (n : Int)
  | str (s : List Nat)
  | list (xs : List BValue)
  | dict (entries : List (List Nat × BValue))

/-- Strict lexicographic byte-string order, matching the Go string
comparison used to sort bencode dictionary keys. -/
def lexLt : List Nat → List Nat → Bool
  | [], [] => false
  | [], _ :: _ => true
  | _ :: _, [] => false
  | a :: as, b :: bs => if a < b then true else if b < a then false else lexLt as bs

theorem lexLt_asymm : ∀ a b : List Nat, lexLt a b = true → lexLt b a = false := by
  intro a
  induction a with
  | nil => intro b _; cases b <;> simp [lexLt]
  | cons x xs ih =>
    intro b h
    cases b with
    | nil => simp [lexLt] at h
    | cons y ys =>
      simp only [lexLt] at h ⊢
      split_ifs at h ⊢ <;> first | rfl | omega | (apply ih; assumption)

/-- Insertion step of the key sort applied to dictionary entries before
encoding. -/
def insertEntry (e : List Nat × BValue) : List (List Nat × BValue) → List (List Nat × BValue)
  | [] => [e]
  | f :: rest => if lexLt f.1 e.1 then f :: insertEntry e rest else e :: f :: rest

/-- Sort dictionary entries by key, as the bencode encoder does with the
keys of a Go map before writing them out. -/
def sortEntries : List (List Nat × BValue) → List (List Nat × BValue)
  | [] => []
  | e :: rest => insertEntry e (sortEntries rest)

theorem sizeOf_insertEntry (e : List Nat × BValue) :
    ∀ l : List (List Nat × BValue), sizeOf (insertEntry e l) = 1 + sizeOf e + sizeOf l := by
  intro l
  induction l with
  | nil => simp [insertEntry]
  | cons f rest ih =>
    simp only [insertEntry]
    split_ifs <;> (simp [ih]; try omega)

theorem sizeOf_sortEntries :
    ∀ l : List (List Nat × BValue), sizeOf (sortEntries l) = sizeOf l := by
  intro l
  induction l with
  | nil => simp [sortEntries]
  | cons e rest ih =>
    simp only [sortEntries]
    rw [sizeOf_insertEntry, ih]
    simp

/-- The non-strict key order: the right key is not lexicographically
below the left one. -/
def keyLe (a b : List Nat × BValue) : Prop := lexLt b.1 a.1 = false

theorem chain_insertEntry (e : List Nat × BValue) :
    ∀ l, List.Chain' keyLe l → List.Chain' keyLe (insertEntry e l) := by
  intro l
  induction l with
  | nil => intro _; simp [insertEntry]
  | cons f rest ih =>
    intro h
    have hrest : List.Chain' keyLe rest := h.tail
    simp only [insertEntry]
    split_ifs with hf
    · refine List.chain'_cons'.mpr ⟨?_, ih hrest⟩
      intro y hy
      cases rest with
      | nil =>
        simp [insertEntry] at hy
        subst hy
        exact lexLt_asymm _ _ hf
      | cons r rs =>
        simp only [insertEntry] at hy
        split_ifs at hy with hr
        · simp at hy
          subst hy
          exact (List.chain'_cons.mp h).1
        · simp at hy
          subst hy
          exact lexLt_asymm _ _ hf
    · refine List.chain'_cons.mpr ⟨?_, h⟩
      simpa [keyLe] using eq_false_of_ne_true hf

theorem chain_sortEntries :
    ∀ l, List.Chain' keyLe (sortEntries l) := by
  intro l
  induction l with
  | nil => simp [sortEntries]
  | cons e rest ih => exact chain_insertEntry e _ ih

mutual

/-- Bencode serialization to bytes; dictionaries are emitted with their
entries sorted by key, as the encoding library does for Go maps. -/
def encode : BValue → List Nat
  | .int n => 105 :: intDigits n ++ [101]
  | .str s => natDigits s.length ++ [58] ++ s
  | .list xs => 108 :: encodeSeq xs ++ [101]
  | .dict es => 100 :: encodeEntries (sortEntries es) ++ [101]
termination_by v => sizeOf v
decreasing_by
  all_goals simp_wf
  all_goals first
    | omega
    | (rw [sizeOf_sortEntries]; omega)

/-- Serialization of the elements of a bencode list. -/
def encodeSeq : List BValue → List Nat
  | [] => []
  | x :: xs => encode x ++ encodeSeq xs
termination_by xs => sizeOf xs
decreasing_by
  all_goals simp_wf
  all_goals omega

/-- Serialization of already sorted dictionary entries: each key as a
byte string, then its value. -/
def encodeEntries : List (List Nat × BValue) → List Nat
  | [] => []
  | (k, v) :: es => encode (.str k) ++ encode v ++ encodeEntries es
termination_by es => sizeOf es
decreasing_by
  all_goals simp_wf
  all_goals omega

end

/-- Lookup of a key inside a bencode dictionary. -/
def bvLookup (v : BValue) (k : List Nat) : Option BValue :=
  match v with
  | .dict es => (es.find? (fun e => e.1 == k)).map Prod.snd
  | _ => none

/-- Insertion into the association-list representation of a Go map:
an existing key is overwritten, a new key is appended. -/
def goMapInsert : List (List Nat × BValue) → List Nat → BValue → List (List Nat × BValue)
  | [], k, v => [(k, v)]
  | (k0, v0) :: rest, k, v =>
    if k0 == k then (k0, v) :: rest else (k0, v0) :: goMapInsert rest k v

end Benc

namespace HTTP

open Benc BT

/-- A Go error value as seen by WriteError: a bittorrent.ClientError,
any other error, or an error wrapping another one. -/
inductive GoError where
  | clientError (msg : String)
  | other (msg : String)
  | wrapped (inner : GoError)

/-- errors.As specialised to bittorrent.ClientError: unwrap until a
ClientError is found, returning its message. -/
def errorsAsClientError : GoError → Option String
  | .clientError m => some m
  | .other _ => none
  | .wrapped e => errorsAsClientError e

/-- WriteError communicates an error to a BitTorrent client over HTTP:
the pair is the HTTP status code and the bencoded body. -/
def WriteError (e : GoError) : Nat × BValue :=
  let message :=
    match errorsAsClientError e with
    | some m => m
    | none => "internal server error"
  (200, .dict [(strBytes "failure reason", .str (strBytes message))])

/-- C3: every error written by WriteError gets HTTP status 200 (never a
non-2xx status), and the body is a bencoded dictionary whose failure
reason is the ClientError message when the error is or wraps a
ClientError, and a generic internal-error message otherwise. -/
theorem writeError_spec (e : GoError) :
    (WriteError e).1 = 200
    ∧ (∀ m, errorsAsClientError e = some m →
        (WriteError e).2 = .dict [(strBytes "failure reason", .str (strBytes m))])
    ∧ (errorsAsClientError e = none →
        (WriteError e).2 =
          .dict [(strBytes "failure reason", .str (strBytes "internal server error"))]) := by
  refine ⟨rfl, ?_, ?_⟩
  · intro m hm
    simp [WriteError, hm]
  · intro hm
    simp [WriteError, hm]

/-- A concrete wrapped client error. -/
def errW : GoError := .wrapped (.clientError "torrent not allowed")

/-- Witness for C3: a wrapped ClientError is unwrapped and its message
is rendered as the failure reason. -/
theorem writeError_spec_witness :
    (WriteError errW).2 =
      .dict [(strBytes "failure reason", .str (strBytes "torrent not allowed"))] :=
  (writeError_spec errW).2.1 "torrent not allowed" rfl

/-- netip.Addr.As4; the Go method panics on a plain IPv6 address, a case
modelled by the empty list and reached by no caller in this file. -/
def as4 : NetAddr → List Nat
  | .v4 bs => bs
  | .v6 bs => if bs.take 12 = v4MappedLead then bs.drop 12 else []

/-- netip.Addr.As16: an IPv4 address maps into the IPv4-mapped range. -/
def as16 : NetAddr → List Nat
  | .v4 bs => v4MappedLead ++ bs
  | .v6 bs => bs

/-- compact4: 4 address bytes then the big-endian port. -/
def compact4 (peer : Peer) : List Nat := as4 peer.addr.unmap ++ putUint16BE peer.port

/-- compact6: 16 address bytes then the big-endian port. -/
def compact6 (peer : Peer) : List Nat := as16 peer.addr.unmap ++ putUint16BE peer.port

/-- The dictionary form of one peer. The bencode reflection of the
netip.Addr ip field is not pinned down by any claim checked here; it is
modelled as the raw bytes of the unmapped address. -/
def peerDict (peer : Peer) : BValue :=
  .dict [(strBytes "peer id", .str peer.id),
         (strBytes "ip", .str peer.addr.unmap.asSlice),
         (strBytes "port", .int peer.port)]

/-- WriteAnnounceResponse builds the bencoded announce response body.
The interval is divided by one second only when positive, and the
minimum interval is divided only when the already divided interval is
still positive, mirroring the source statement order. -/
def WriteAnnounceResponse (resp : AnnounceResponse) : BValue :=
  let interval := if resp.interval > 0 then resp.interval.tdiv 1000000000 else resp.interval
  let minInterval :=
    if interval > 0 then resp.minInterval.tdiv 1000000000 else resp.minInterval
  let base : List (List Nat × BValue) :=
    [(strBytes "complete", .int resp.complete),
     (strBytes "incomplete", .int resp.incomplete),
     (strBytes "interval", .int interval),
     (strBytes "min interval", .int minInterval)]
  let entries :=
    if resp.compact then
      let ipv4Compact := resp.ipv4Peers.foldl (fun acc p => acc ++ compact4 p) []
      let withPeers :=
        if ipv4Compact.length > 0 then base ++ [(strBytes "peers", .str ipv4Compact)] else base
      let ipv6Compact := resp.ipv6Peers.foldl (fun acc p => acc ++ compact6 p) []
      if ipv6Compact.length > 0 then withPeers ++ [(strBytes "peers6", .str ipv6Compact)]
      else withPeers
    else
      base ++ [(strBytes "peers", .list (resp.ipv4Peers.map peerDict ++ resp.ipv6Peers.map peerDict))]
  .dict entries

/-- An announce response with a zero interval and a one-minute minimum
interval, in nanoseconds. -/
def respC4 : AnnounceResponse :=
  { compact := true, complete := 5, incomplete := 7, interval := 0,
    minInterval := 60000000000, ipv4Peers := [], ipv6Peers := [] }

/-- C4: with Interval zero and MinInterval of 60 seconds, the emitted
min interval entry is the raw nanosecond count 60000000000 rather than
60, because the division of MinInterval is guarded by the test of the
already divided Interval instead of MinInterval itself. -/
theorem writeAnnounce_minInterval_not_seconds :
    bvLookup (WriteAnnounceResponse respC4) (strBytes "min interval") = some (.int 60000000000)
    ∧ (60000000000 : Int).tdiv 1000000000 = 60
    ∧ (60000000000 : Int) ≠ 60 := by
  refine ⟨rfl, by decide, by decide⟩

/-- The association list of the files dictionary of a scrape response,
keyed by raw infohash, built in request order with Go map overwrite
semantics. -/
def filesAssoc (resp : ScrapeResponse) : List (List Nat × BValue) :=
  resp.files.foldl
    (fun m s => goMapInsert m s.infoHash
      (.dict [(strBytes "complete", .int s.complete),
              (strBytes "incomplete", .int s.incomplete)]))
    []

/-- WriteScrapeResponse builds the bencoded scrape body: a dictionary
with a files dictionary keyed by raw infohash. -/
def WriteScrapeResponse (resp : ScrapeResponse) : BValue :=
  .dict [(strBytes "files", .dict (filesAssoc resp))]

/-- C5 amended: the files of the serialized scrape body appear in
lexicographic byte order of their infohashes, the dictionary order the
bencode encoder imposes, not in request order. -/
theorem writeScrape_sorted_body (resp : ScrapeResponse) :
    encode (WriteScrapeResponse resp) =
      [100] ++ encode (.str (strBytes "files"))
        ++ [100] ++ encodeEntries (sortEntries (filesAssoc resp)) ++ [101, 101]
    ∧ List.Chain' keyLe (sortEntries (filesAssoc resp)) := by
  constructor
  · simp [WriteScrapeResponse, encode, encodeEntries, sortEntries, insertEntry]
  · exact chain_sortEntries _

def scrapeA : Scrape :=
  { infoHash := [1, 1, 1, 1, 1, 1, 1, 1, 1, 1, 1, 1, 1, 1, 1, 1, 1, 1, 1, 1],
    snatches := 0, complete := 1, incomplete := 2 }

def scrapeB : Scrape :=
  { infoHash := [2, 2, 2, 2, 2, 2, 2, 2, 2, 2, 2, 2, 2, 2, 2, 2, 2, 2, 2, 2],
    snatches := 0, complete := 3, incomplete := 4 }

/-- Files listed in the order B then A. -/
def respBA : ScrapeResponse := { files := [scrapeB, scrapeA] }

/-- Files listed in the order A then B. -/
def respAB : ScrapeResponse := { files := [scrapeA, scrapeB] }

/-- C5 counterexample: two scrape responses listing the same infohashes
in opposite request orders serialize to byte-identical bodies, so the
serialized body cannot present the results in request order for both. -/
theorem writeScrape_order_counterexample :
    encode (WriteScrapeResponse respBA) = encode (WriteScrapeResponse respAB)
    ∧ respBA.files.map Scrape.infoHash ≠ respAB.files.map Scrape.infoHash := by
  constructor
  · simp [WriteScrapeResponse, filesAssoc, respBA, respAB, scrapeA, scrapeB, goMapInsert,
      encode, encodeEntries, sortEntries, insertEntry, lexLt, natDigits,
      natDigitsCore, intDigits, strBytes]
  · decide

end HTTP

namespace PG

open Benc

/-- Whitespace bytes trimmed by strings.TrimSpace (ASCII subset; the
configuration strings involved are ASCII). -/
def isSpaceByte (b : Nat) : Bool := b == 32 || (9 ≤ b && b ≤ 13)

/-- strings.TrimSpace on a byte string. -/
def trimSpace (s : List Nat) : List Nat :=
  ((s.dropWhile isSpaceByte).reverse.dropWhile isSpaceByte).reverse

/-- strings.ToUpper on one ASCII byte. -/
def toUpperByte (b : Nat) : Nat := if 97 ≤ b ∧ b ≤ 122 then b - 32 else b

/-- strings.ToUpper on a byte string. -/
def toUpperStr (s : List Nat) : List Nat := s.map toUpperByte

/-- The configuration of the pg peer store; every field is a Go string
(byte string here). -/
structure Config where
  connectionString : List Nat
  pingQuery : List Nat
  peerAddQuery : List Nat
  peerDelQuery : List Nat
  peerGraduateQuery : List Nat
  peerCountQuery : List Nat
  peerCountSeedersColumn : List Nat
  peerCountLeechersColumn : List Nat
  peerByInfoHashClause : List Nat
  announceQuery : List Nat
  announcePeerIDColumn : List Nat
  announceAddressColumn : List Nat
  announcePortColumn : List Nat
  dataAddQuery : List Nat
  dataGetQuery : List Nat
  dataDelQuery : List Nat
  gcQuery : List Nat
  infoHashCountQuery : List Nat
deriving DecidableEq, Repr

/-- The default ping query. -/
def defaultPingQuery : List Nat := strBytes "SELECT 0"

/-- The required-parameter check of Validate: trim, then fail when empty. -/
def checkRequired (p : List Nat) (name : String) : Except String (List Nat) :=
  let t := trimSpace p
  if t.length = 0 then .error ("required parameter not provided: " ++ name) else .ok t

/-- Validate sanity checks the config and returns a new config with
defaults and normalization applied. The three upper-casing statements
near the end all assign to the Announce.PeerIDColumn field, exactly as
the source does. -/
def Validate (cfg : Config) : Except String Config := do
  let connectionString := trimSpace cfg.connectionString
  if connectionString.length = 0 then
    throw "database address not provided"
  let pingQuery := if cfg.pingQuery.length = 0 then defaultPingQuery else cfg.pingQuery
  let peerAddQuery ← checkRequired cfg.peerAddQuery "Peer.AddQuery"
  let peerDelQuery ← checkRequired cfg.peerDelQuery "Peer.DelQuery"
  let peerGraduateQuery ← checkRequired cfg.peerGraduateQuery "Peer.GraduateQuery"
  let peerCountQuery ← checkRequired cfg.peerCountQuery "Peer.CountQuery"
  let peerCountSeedersColumn ← checkRequired cfg.peerCountSeedersColumn "Peer.CountSeedersColumn"
  let peerCountLeechersColumn ← checkRequired cfg.peerCountLeechersColumn "Peer.CountLeechersColumn"
  let peerByInfoHashClause ← checkRequired cfg.peerByInfoHashClause "Peer.ByInfoHashClause"
  let announceQuery ← checkRequired cfg.announceQuery "Announce.Query"
  let announcePeerIDColumn ← checkRequired cfg.announcePeerIDColumn "Announce.PeerIDColumn"
  let announceAddressColumn ← checkRequired cfg.announceAddressColumn "Announce.AddressColumn"
  let announcePortColumn ← checkRequired cfg.announcePortColumn "Announce.PortColumn"
  let dataAddQuery ← checkRequired cfg.dataAddQuery "Data.AddQuery"
  let dataGetQuery ← checkRequired cfg.dataGetQuery "Data.GetQuery"
  let dataDelQuery ← checkRequired cfg.dataDelQuery "Data.DelQuery"
  let announcePeerIDColumn := toUpperStr announcePeerIDColumn
  let announcePeerIDColumn := toUpperStr announceAddressColumn
  let announcePeerIDColumn := toUpperStr announcePortColumn
  let peerCountSeedersColumn := toUpperStr peerCountSeedersColumn
  let peerCountLeechersColumn := toUpperStr peerCountLeechersColumn
  return {
    connectionString := connectionString,
    pingQuery := pingQuery,
    peerAddQuery := peerAddQuery,
    peerDelQuery := peerDelQuery,
    peerGraduateQuery := peerGraduateQuery,
    peerCountQuery := peerCountQuery,
    peerCountSeedersColumn := peerCountSeedersColumn,
    peerCountLeechersColumn := peerCountLeechersColumn,
    peerByInfoHashClause := peerByInfoHashClause,
    announceQuery := announceQuery,
    announcePeerIDColumn := announcePeerIDColumn,
    announceAddressColumn := announceAddressColumn,
    announcePortColumn := announcePortColumn,
    dataAddQuery := dataAddQuery,
    dataGetQuery := dataGetQuery,
    dataDelQuery := dataDelQuery,
    gcQuery := cfg.gcQuery,
    infoHashCountQuery := cfg.infoHashCountQuery }

/-- A configuration with lower-case announce column names, every
required field set. -/
def cfgC10 : Config :=
  { connectionString := strBytes "host=db",
    pingQuery := strBytes "SELECT 0",
    peerAddQuery := strBytes "INSERT",
    peerDelQuery := strBytes "DELETE",
    peerGraduateQuery := strBytes "UPDATE",
    peerCountQuery := strBytes "SELECT COUNT",
    peerCountSeedersColumn := strBytes "seeders",
    peerCountLeechersColumn := strBytes "leechers",
    peerByInfoHashClause := strBytes "WHERE ih = $1",
    announceQuery := strBytes "SELECT PEERS",
    announcePeerIDColumn := strBytes "peer_id",
    announceAddressColumn := strBytes "address",
    announcePortColumn := strBytes "port",
    dataAddQuery := strBytes "INSERT D",
    dataGetQuery := strBytes "SELECT D",
    dataDelQuery := strBytes "DELETE D",
    gcQuery := strBytes "DELETE OLD",
    infoHashCountQuery := strBytes "SELECT COUNT IH" }

/-- C10: on a successfully validated configuration with announce columns
peer_id, address and port, the returned PeerIDColumn is the upper-cased
PortColumn, while AddressColumn and PortColumn stay lower case: each of
the three upper-casing statements assigns into PeerIDColumn, so the
intended per-field upper-casing (required for the upper-cased result-set
matching in getPeers) does not happen. -/
theorem validate_uppercases_wrong_field :
    (Validate cfgC10).toOption.map (fun c =>
      (c.announcePeerIDColumn, c.announceAddressColumn, c.announcePortColumn))
      = some (strBytes "PORT", strBytes "address", strBytes "port")
    ∧ strBytes "PORT" ≠ toUpperStr (strBytes "peer_id")
    ∧ strBytes "address" ≠ toUpperStr (strBytes "address") := by
  refine ⟨rfl, by decide, by decide⟩

/-- A row of the peers table kept by the pg store. -/
structure PeerRow where
  ih : List Nat
  id : List Nat
  addr : BT.NetAddr
  port : Nat
  seeder : Bool
deriving DecidableEq, Repr

/-- Modelled from the spec: the announce query is configured SQL that is
not part of the sources; it receives the infohash, the wanted address
family, the wanted role and the budget, and is expected to return the
matching peers of that swarm. It is modelled as the matching rows of the
peers table; the budget is enforced again by the Go row loop, modelled
in getPeers. -/
def announceQueryRows (db : List PeerRow) (ih : List Nat) (seeders : Bool) (isV6 : Bool) :
    List PeerRow :=
  db.filter (fun r => r.ih == ih && r.seeder == seeders && r.addr.is6 == isV6)

/-- One result row parsed into a Peer, as the scan loop of getPeers
does. Rows that fail to parse are skipped and logged in the source; the
table model stores well-formed rows, so every row parses. -/
def rowToPeer (r : PeerRow) : BT.Peer := { id := r.id, port := r.port, addr := r.addr }

/-- getPeers: run the announce query and collect up to maxCount peers. -/
def getPeers (db : List PeerRow) (ih : List Nat) (seeders : Bool) (maxCount : Nat) (isV6 : Bool) :
    List BT.Peer :=
  ((announceQueryRows db ih seeders isV6).map rowToPeer).take maxCount

/-- The sentinel error for an unknown or empty swarm. -/
def ErrResourceDoesNotExist : String := "resource does not exist"

/-- AnnouncePeers of the pg store: a seeder gets leechers only; any
other caller first gets seeders, then leechers with the remaining
budget; an empty result is the resource-does-not-exist error. -/
def AnnouncePeers (db : List PeerRow) (ih : List Nat) (forSeeder : Bool) (numWant : Nat)
    (v6 : Bool) : Except String (List BT.Peer) :=
  let peers :=
    if forSeeder then getPeers db ih false numWant v6
    else
      let seederPeers := getPeers db ih true numWant v6
      seederPeers ++ getPeers db ih false (numWant - seederPeers.length) v6
  if peers.length = 0 then .error ErrResourceDoesNotExist else .ok peers

/-- The seeders of a swarm, in table order, parsed as peers. -/
def seedersOf (db : List PeerRow) (ih : List Nat) (v6 : Bool) : List BT.Peer :=
  (announceQueryRows db ih true v6).map rowToPeer

/-- The leechers of a swarm, in table order, parsed as peers. -/
def leechersOf (db : List PeerRow) (ih : List Nat) (v6 : Bool) : List BT.Peer :=
  (announceQueryRows db ih false v6).map rowToPeer

def ihC1 : List Nat := [7, 7, 7, 7, 7, 7, 7, 7, 7, 7, 7, 7, 7, 7, 7, 7, 7, 7, 7, 7]

def rowLeecherC1 : PeerRow :=
  { ih := ihC1, id := [3, 3, 3, 3, 3, 3, 3, 3, 3, 3, 3, 3, 3, 3, 3, 3, 3, 3, 3, 3],
    addr := .v4 [2, 2, 2, 2], port := 1002, seeder := false }

def rowSeederC1 : PeerRow :=
  { ih := ihC1, id := [2, 2, 2, 2, 2, 2, 2, 2, 2, 2, 2, 2, 2, 2, 2, 2, 2, 2, 2, 2],
    addr := .v4 [1, 1, 1, 1], port := 1001, seeder := true }

/-- The peers table: the leecher row stored before the seeder row. -/
def dbC1 : List PeerRow := [rowLeecherC1, rowSeederC1]

/-- C1 counterexample: a non-seeding announce against a swarm with one
leecher and one seeder returns the seeder first, although a leecher is
available and listed first in the table, so the result does not contain
the leechers first. -/
theorem announcePeers_seeder_first_counterexample :
    AnnouncePeers dbC1 ihC1 false 2 false
      = .ok [rowToPeer rowSeederC1, rowToPeer rowLeecherC1]
    ∧ rowSeederC1.seeder = true
    ∧ rowLeecherC1.seeder = false
    ∧ rowToPeer rowSeederC1 ≠ rowToPeer rowLeecherC1 := by
  refine ⟨rfl, rfl, rfl, by decide⟩

/-- C1 amended: a seeding caller receives only leechers; any other
caller receives the seeders first, then leechers with the remaining
budget, never more than numWant peers in total. -/
theorem announcePeers_role_order (db : List PeerRow) (ih : List Nat) (numWant : Nat)
    (v6 : Bool) :
    (∀ ps, AnnouncePeers db ih true numWant v6 = .ok ps →
        ps = (leechersOf db ih v6).take numWant)
    ∧ (∀ ps, AnnouncePeers db ih false numWant v6 = .ok ps →
        ps = (seedersOf db ih v6).take numWant
            ++ (leechersOf db ih v6).take
                (numWant - ((seedersOf db ih v6).take numWant).length)
          ∧ ps.length ≤ numWant) := by
  constructor
  · intro ps h
    simp only [AnnouncePeers, ite_true, ite_false, Bool.false_eq_true] at h
    by_cases hz : (getPeers db ih false numWant v6).length = 0
    · rw [if_pos hz] at h
      exact Except.noConfusion h
    · rw [if_neg hz] at h
      injection h with h2
      exact h2.symm
  · intro ps h
    simp only [AnnouncePeers, ite_true, ite_false, Bool.false_eq_true] at h
    by_cases hz : (getPeers db ih true numWant v6
        ++ getPeers db ih false (numWant - (getPeers db ih true numWant v6).length) v6).length = 0
    · rw [if_pos hz] at h
      exact Except.noConfusion h
    · rw [if_neg hz] at h
      injection h with h2
      have hps : ps = (seedersOf db ih v6).take numWant
          ++ (leechersOf db ih v6).take
              (numWant - ((seedersOf db ih v6).take numWant).length) := h2.symm
      refine ⟨hps, ?_⟩
      rw [hps]
      simp [List.length_take]
      omega

/-- Witness for the amended C1 theorem at the concrete two-peer swarm. -/
theorem announcePeers_role_order_witness :
    [rowToPeer rowSeederC1, rowToPeer rowLeecherC1]
        = (seedersOf dbC1 ihC1 false).take 2
          ++ (leechersOf dbC1 ihC1 false).take
              (2 - ((seedersOf dbC1 ihC1 false).take 2).length)
    ∧ ([rowToPeer rowSeederC1, rowToPeer rowLeecherC1] : List BT.Peer).length ≤ 2 :=
  (announcePeers_role_order dbC1 ihC1 2 false).2
    [rowToPeer rowSeederC1, rowToPeer rowLeecherC1] rfl

/-- Modelled from the spec: the count query is configured SQL, not part
of the sources; its documented shape (SELECT COUNT(1) FILTER (WHERE
seeder) AS ..., COUNT(1) FILTER (WHERE NOT seeder) AS ... FROM peers)
is an aggregate returning exactly one row with the seeder and leecher
counts, under result column names sa and la chosen by the configured
SQL; with the by-infohash clause the counts cover one swarm only. -/
def countQueryRow (db : List PeerRow) (flt : Option (List Nat)) (sa la : List Nat) :
    List (List Nat × Int) :=
  let rows := match flt with
    | none => db
    | some ih => db.filter (fun r => r.ih == ih)
  [(sa, ((rows.filter (fun r => r.seeder)).length : Int)),
   (la, ((rows.filter (fun r => !r.seeder)).length : Int))]

/-- The column-index resolution loop of countPeers: iterate the result
fields, upper-case each name, and remember the index of the configured
seeders and leechers columns, starting from -1. -/
def resolveCountIdx (cfg : Config) (fields : List (List Nat)) : Int × Int :=
  let r := fields.foldl
    (fun (acc : Int × Int × Nat) f =>
      let name := toUpperStr f
      let si := acc.1
      let li := acc.2.1
      let i := acc.2.2
      if name = cfg.peerCountSeedersColumn then ((i : Int), li, i + 1)
      else if name = cfg.peerCountLeechersColumn then (si, (i : Int), i + 1)
      else (si, li, i + 1))
    (-1, -1, 0)
  (r.1, r.2.1)

/-- countPeers: run the count query (whole table for the none infohash,
one swarm otherwise), resolve the configured columns in the result set,
and scan the counts; any failure is logged and leaves the zero values.
Returns (leechers, seeders), the named return order of the source. -/
def countPeers (cfg : Config) (sa la : List Nat) (db : List PeerRow) (ih : List Nat) :
    Int × Int :=
  let row := if ih.length = 0 then countQueryRow db none sa la
             else countQueryRow db (some ih) sa la
  let fields := row.map Prod.fst
  let idx := resolveCountIdx cfg fields
  if idx.1 < 0 ∨ idx.2 < 0 then (0, 0)
  else ((row.map Prod.snd).getD idx.2.toNat 0, (row.map Prod.snd).getD idx.1.toNat 0)

/-- The Go uint32 conversion of an int. -/
def toUInt32 (n : Int) : Nat := (n % 4294967296).toNat

/-- ScrapeSwarm of the pg store: count the peers of the swarm and return
three uint32 values; the snatched counter is never set and stays zero,
and no error is signalled. The local variable names mirror the source
assignment sc, lc := countPeers(ih). -/
def ScrapeSwarm (cfg : Config) (sa la : List Nat) (db : List PeerRow) (ih : List Nat) :
    Nat × Nat × Nat :=
  let cp := countPeers cfg sa la db ih
  let sc := cp.1
  let lc := cp.2
  (toUInt32 lc, toUInt32 sc, 0)

theorem getD_pair_zero : ∀ n : Nat, (([0, 0] : List Int)[n]?).getD 0 = 0 := by
  intro n
  rcases n with _ | _ | n <;> simp

/-- C2: for every valid infohash (20 or 32 bytes) that no row of the
peers table carries, ScrapeSwarm returns the all-zero triple; its return
type carries no error at all, so it is total and never signals one. -/
theorem scrapeSwarm_missing_zero (cfg : Config) (sa la : List Nat) (db : List PeerRow)
    (ih : List Nat) (hlen : ih.length = 20 ∨ ih.length = 32)
    (habsent : ∀ r ∈ db, r.ih ≠ ih) :
    ScrapeSwarm cfg sa la db ih = (0, 0, 0) := by
  have hne : ¬ (ih.length = 0) := by omega
  have hfilter : db.filter (fun r => r.ih == ih) = [] := by
    rw [List.filter_eq_nil_iff]
    intro r hr
    simpa using habsent r hr
  simp only [ScrapeSwarm, countPeers, countQueryRow, if_neg hne, hfilter, List.filter_nil,
    List.length_nil, List.map_cons, List.map_nil]
  split
  · rfl
  · simp [getD_pair_zero, toUInt32]

def cfgC2 : Config :=
  { cfgC10 with
    peerCountSeedersColumn := strBytes "SEEDERS",
    peerCountLeechersColumn := strBytes "LEECHERS" }

def ihC2 : List Nat := [9, 9, 9, 9, 9, 9, 9, 9, 9, 9, 9, 9, 9, 9, 9, 9, 9, 9, 9, 9]

/-- A nonempty table that holds no row for the scraped infohash. -/
def dbC2 : List PeerRow := [rowSeederC1]

/-- Witness for C2 at a concrete absent infohash over a nonempty table. -/
theorem scrapeSwarm_missing_zero_witness :
    ScrapeSwarm cfgC2 (strBytes "seeders") (strBytes "leechers") dbC2 ihC2 = (0, 0, 0) :=
  scrapeSwarm_missing_zero cfgC2 (strBytes "seeders") (strBytes "leechers") dbC2 ihC2
    (by decide) (by decide)

end PG


namespace BT

/-- bittorrent.AnnounceRequest: the parsed parameters of an announce.
Only the infohash and the peer ID feed the entropy derivation; the other
fields are carried to state that they do not influence it. -/
structure AnnounceRequest where
  infoHash : List Nat
  peerID : List Nat
  event : Nat
  left : Nat
  downloaded : Nat
  uploaded : Nat
  numWant : Nat
  peerPort : Nat
  peerAddr : NetAddr

end BT

namespace Random

/-- Two to the 64, the modulus of uint64 arithmetic. -/
def M64 : Nat := 18446744073709551616

/-- binary.BigEndian.Uint64 of the first eight bytes of a slice. -/
def uint64BE (bs : List Nat) : Nat :=
  (bs.take 8).foldl (fun a b => 256 * a + b) 0

/-- DeriveEntropyFromRequest generates 2 times 64 bits of pseudo random
state from an announce request: the first word adds the two big-endian
64-bit words of the first 16 infohash bytes (zero when the infohash is
shorter than the 20-byte v1 length), the second adds the two words of
the first 16 peer ID bytes; uint64 addition wraps modulo 2 to the 64. -/
def DeriveEntropyFromRequest (req : BT.AnnounceRequest) : Nat × Nat :=
  let v0 := if 20 ≤ req.infoHash.length then
      (uint64BE req.infoHash + uint64BE (req.infoHash.drop 8)) % M64
    else 0
  let v1 := (uint64BE req.peerID + uint64BE (req.peerID.drop 8)) % M64
  (v0, v1)

/-- Modelled from the spec: random.Next, the step of the splittable PRNG
driven by the derived entropy, is not part of the provided sources; the
spec only requires a deterministic generator. It is modelled as an
xorshift128+ style step over uint64 state. -/
def next (s0 s1 : Nat) : Nat × Nat × Nat :=
  let x := s0 ^^^ ((s0 <<< 23) % M64)
  let y := s1
  let x := x ^^^ (x >>> 17) ^^^ y ^^^ (y >>> 26)
  ((x + y) % M64, y, x)

/-- Modelled from the spec: random.Intn draws the next PRNG value and
reduces it modulo n, returning the value and the advanced state. -/
def Intn (s0 s1 : Nat) (n : Nat) : Nat × Nat × Nat :=
  let r := next s0 s1
  (r.1 % n, r.2.1, r.2.2)

end Random

namespace VarInterval

/-- The varinterval middleware configuration. The Go field
ModifyResponseProbability is a float32; every value compared against it
here (v divided by 2 to the 24 with v below 2 to the 24) is exactly
representable in float32, so exact rational arithmetic models the float
comparison faithfully. MaxIncreaseDelta is a Go int whose non-positive
values checkConfig rejects, so the natural-number model only drops
rejected configurations. -/
structure Config where
  modifyResponseProbability : ℚ
  maxIncreaseDelta : Nat
  modifyMinInterval : Bool

/-- checkConfig validates the middleware configuration. -/
def checkConfig (cfg : Config) : Except String Unit :=
  if cfg.modifyResponseProbability ≤ 0 ∨ 1 < cfg.modifyResponseProbability then
    .error "invalid modify_response_probability"
  else if cfg.maxIncreaseDelta = 0 then
    .error "invalid max_increase_delta"
  else .ok ()

/-- HandleAnnounce of the varinterval hook: derive the entropy, draw a
probability sample, and when the response is to be modified add a delta
of one to MaxIncreaseDelta seconds to the interval, and to the minimum
interval when configured; otherwise return the response unchanged. -/
def HandleAnnounce (cfg : Config) (req : BT.AnnounceRequest) (resp : BT.AnnounceResponse) :
    BT.AnnounceResponse :=
  let e := Random.DeriveEntropyFromRequest req
  let r1 := Random.Intn e.1 e.2 16777216
  let p : ℚ := (r1.1 : ℚ) / 16777216
  if cfg.modifyResponseProbability = 1 ∨ p < cfg.modifyResponseProbability then
    let r2 := Random.Intn r1.2.1 r1.2.2 cfg.maxIncreaseDelta
    let add : Int := ((r2.1 : Int) + 1) * 1000000000
    { resp with interval := resp.interval + add,
                minInterval := if cfg.modifyMinInterval then resp.minInterval + add
                               else resp.minInterval }
  else resp

/-- The modification decision of HandleAnnounce, as a boolean. -/
def decideModify (cfg : Config) (req : BT.AnnounceRequest) : Bool :=
  let e := Random.DeriveEntropyFromRequest req
  let r1 := Random.Intn e.1 e.2 16777216
  let p : ℚ := (r1.1 : ℚ) / 16777216
  decide (cfg.modifyResponseProbability = 1 ∨ p < cfg.modifyResponseProbability)

/-- The number of seconds a modified response is increased by. -/
def increaseDelta (cfg : Config) (req : BT.AnnounceRequest) : Nat :=
  let e := Random.DeriveEntropyFromRequest req
  let r1 := Random.Intn e.1 e.2 16777216
  (Random.Intn r1.2.1 r1.2.2 cfg.maxIncreaseDelta).1 + 1

/-- C6: under a validated configuration, whenever the hook decides to
modify an announce it adds exactly d seconds to the Interval for some d
with 1 <= d <= MaxIncreaseDelta, adds the same d to MinInterval exactly
when ModifyMinInterval is set, and changes nothing else; a response it
decides not to modify is returned unchanged. -/
theorem handleAnnounce_delta_bounds (cfg : Config) (req : BT.AnnounceRequest)
    (resp : BT.AnnounceResponse) (hc : checkConfig cfg = .ok ()) :
    (decideModify cfg req = true →
      1 ≤ increaseDelta cfg req ∧ increaseDelta cfg req ≤ cfg.maxIncreaseDelta ∧
      HandleAnnounce cfg req resp =
        { resp with
            interval := resp.interval + (increaseDelta cfg req : Int) * 1000000000,
            minInterval := if cfg.modifyMinInterval then
                resp.minInterval + (increaseDelta cfg req : Int) * 1000000000
              else resp.minInterval })
    ∧ (decideModify cfg req = false → HandleAnnounce cfg req resp = resp) := by
  have hmax : 0 < cfg.maxIncreaseDelta := by
    rw [checkConfig] at hc
    split_ifs at hc with h1 h2
    · omega
  constructor
  · intro hmod
    have hp := of_decide_eq_true hmod
    have hlt : ∀ s0 s1, (Random.Intn s0 s1 cfg.maxIncreaseDelta).1 + 1 ≤ cfg.maxIncreaseDelta := by
      intro s0 s1
      have := Nat.mod_lt (Random.next s0 s1).1 hmax
      simp only [Random.Intn]
      omega
    refine ⟨by simp [increaseDelta], ?_, ?_⟩
    · simp only [increaseDelta]
      exact hlt _ _
    · simp only [HandleAnnounce]
      rw [if_pos hp]
      simp only [increaseDelta, Nat.cast_add, Nat.cast_one]
  · intro hmod
    have hp := of_decide_eq_false hmod
    simp only [HandleAnnounce]
    rw [if_neg hp]

def cfgC6 : Config :=
  { modifyResponseProbability := 1, maxIncreaseDelta := 3, modifyMinInterval := true }

def reqC6 : BT.AnnounceRequest :=
  { infoHash := [1, 2, 3, 4, 5, 6, 7, 8, 9, 10, 11, 12, 13, 14, 15, 16, 17, 18, 19, 20],
    peerID := [20, 19, 18, 17, 16, 15, 14, 13, 12, 11, 10, 9, 8, 7, 6, 5, 4, 3, 2, 1],
    event := 0, left := 100, downloaded := 5, uploaded := 6, numWant := 50,
    peerPort := 6881, peerAddr := .v4 [10, 0, 0, 1] }

def respC6 : BT.AnnounceResponse :=
  { compact := true, complete := 0, incomplete := 0, interval := 1800000000000,
    minInterval := 900000000000, ipv4Peers := [], ipv6Peers := [] }

/-- Witness for C6: a probability-one configuration always modifies, and
the concrete delta obeys the bounds and updates both intervals. -/
theorem handleAnnounce_delta_bounds_witness :
    1 ≤ increaseDelta cfgC6 reqC6 ∧ increaseDelta cfgC6 reqC6 ≤ cfgC6.maxIncreaseDelta ∧
    HandleAnnounce cfgC6 reqC6 respC6 =
      { respC6 with
          interval := respC6.interval + (increaseDelta cfgC6 reqC6 : Int) * 1000000000,
          minInterval := if cfgC6.modifyMinInterval then
              respC6.minInterval + (increaseDelta cfgC6 reqC6 : Int) * 1000000000
            else respC6.minInterval } :=
  (handleAnnounce_delta_bounds cfgC6 reqC6 respC6 rfl).1 (by decide)

/-- The seed construction as the claim words it: the bytewise XOR of
InfoHash[:16] with PeerID[:16], read as two big-endian 64-bit words. -/
def claimedXorEntropy (req : BT.AnnounceRequest) : Nat × Nat :=
  let x := List.zipWith Nat.xor (req.infoHash.take 16) (req.peerID.take 16)
  (Random.uint64BE x, Random.uint64BE (x.drop 8))

def reqC7 : BT.AnnounceRequest :=
  { infoHash := [1, 1, 1, 1, 1, 1, 1, 1, 1, 1, 1, 1, 1, 1, 1, 1, 1, 1, 1, 1],
    peerID := [0, 0, 0, 0, 0, 0, 0, 0, 0, 0, 0, 0, 0, 0, 0, 0, 0, 0, 0, 0],
    event := 0, left := 0, downloaded := 0, uploaded := 0, numWant := 0,
    peerPort := 0, peerAddr := .v4 [0, 0, 0, 0] }

/-- C7 counterexample: the derived entropy differs from the seed the
claim describes (InfoHash[:16] XOR PeerID[:16] as two words) at a
concrete request: the code sums the two infohash words into the first
seed word and the two peer ID words into the second, and never combines
the infohash with the peer ID. -/
theorem deriveEntropy_not_xor :
    Random.DeriveEntropyFromRequest reqC7 ≠ claimedXorEntropy reqC7 := by decide

/-- A big-endian 64-bit word read from eight indexed bytes. -/
def word8At (bs : List Nat) (off : Nat) : Nat :=
  bs.getD off 0 * 72057594037927936 + bs.getD (off + 1) 0 * 281474976710656
    + bs.getD (off + 2) 0 * 1099511627776 + bs.getD (off + 3) 0 * 4294967296
    + bs.getD (off + 4) 0 * 16777216 + bs.getD (off + 5) 0 * 65536
    + bs.getD (off + 6) 0 * 256 + bs.getD (off + 7) 0

theorem uint64BE_eq_word8At :
    ∀ bs : List Nat, 8 ≤ bs.length → Random.uint64BE bs = word8At bs 0
  | [], h => by simp at h
  | [_], h => by simp at h
  | [_, _], h => by simp at h
  | [_, _, _], h => by simp at h
  | [_, _, _, _], h => by simp at h
  | [_, _, _, _, _], h => by simp at h
  | [_, _, _, _, _, _], h => by simp at h
  | [_, _, _, _, _, _, _], h => by simp at h
  | b0 :: b1 :: b2 :: b3 :: b4 :: b5 :: b6 :: b7 :: rest, _ => by
      simp [Random.uint64BE, word8At, List.getD]
      ring

theorem word8At_drop (bs : List Nat) (off : Nat) :
    word8At (bs.drop 8) off = word8At bs (8 + off) := by
  simp [word8At, List.getD_eq_getElem?_getD, List.getElem?_drop]
  ring_nf

/-- C7 amended: for every announce request with a full-size infohash and
peer ID, the first seed word is the sum modulo 2 to the 64 of the two
big-endian 64-bit words of InfoHash[:16], and the second is the sum of
the two words of PeerID[:16]; the infohash and the peer ID are never
combined with each other. -/
theorem deriveEntropy_word_sums (req : BT.AnnounceRequest)
    (hih : 20 ≤ req.infoHash.length) (hpid : req.peerID.length = 20) :
    Random.DeriveEntropyFromRequest req =
      ((word8At req.infoHash 0 + word8At req.infoHash 8) % Random.M64,
       (word8At req.peerID 0 + word8At req.peerID 8) % Random.M64) := by
  have h1 : Random.uint64BE req.infoHash = word8At req.infoHash 0 :=
    uint64BE_eq_word8At _ (by omega)
  have h2 : Random.uint64BE (req.infoHash.drop 8) = word8At req.infoHash 8 := by
    rw [uint64BE_eq_word8At _ (by simp; omega), word8At_drop]
  have h3 : Random.uint64BE req.peerID = word8At req.peerID 0 :=
    uint64BE_eq_word8At _ (by omega)
  have h4 : Random.uint64BE (req.peerID.drop 8) = word8At req.peerID 8 := by
    rw [uint64BE_eq_word8At _ (by simp; omega), word8At_drop]
  simp [Random.DeriveEntropyFromRequest, hih, h1, h2, h3, h4]

/-- Witness for the amended C7 theorem at a concrete request. -/
theorem deriveEntropy_word_sums_witness :
    Random.DeriveEntropyFromRequest reqC6 =
      ((word8At reqC6.infoHash 0 + word8At reqC6.infoHash 8) % Random.M64,
       (word8At reqC6.peerID 0 + word8At reqC6.peerID 8) % Random.M64) :=
  deriveEntropy_word_sums reqC6 (by decide) (by decide)

/-- C8: the interval modification applied by the hook is a deterministic
function of the infohash and peer ID under a fixed configuration: two
announce requests agreeing on those two fields (whatever their other
fields) receive the identical response transformation. -/
theorem handleAnnounce_deterministic (cfg : Config) (req1 req2 : BT.AnnounceRequest)
    (resp : BT.AnnounceResponse)
    (hih : req1.infoHash = req2.infoHash) (hpid : req1.peerID = req2.peerID) :
    HandleAnnounce cfg req1 resp = HandleAnnounce cfg req2 resp := by
  have he : Random.DeriveEntropyFromRequest req1 = Random.DeriveEntropyFromRequest req2 := by
    simp [Random.DeriveEntropyFromRequest, hih, hpid]
  simp [HandleAnnounce, he]

/-- A request agreeing with reqC6 on infohash and peer ID but differing
in every other field. -/
def reqC8 : BT.AnnounceRequest :=
  { infoHash := [1, 2, 3, 4, 5, 6, 7, 8, 9, 10, 11, 12, 13, 14, 15, 16, 17, 18, 19, 20],
    peerID := [20, 19, 18, 17, 16, 15, 14, 13, 12, 11, 10, 9, 8, 7, 6, 5, 4, 3, 2, 1],
    event := 2, left := 0, downloaded := 999, uploaded := 777, numWant := 10,
    peerPort := 51413, peerAddr := .v6 (List.replicate 16 3) }

/-- Witness for C8: the two concrete requests share infohash and peer ID
only, and receive the same modified response. -/
theorem handleAnnounce_deterministic_witness :
    HandleAnnounce cfgC6 reqC6 respC6 = HandleAnnounce cfgC6 reqC8 respC6 :=
  handleAnnounce_deterministic cfgC6 reqC6 reqC8 respC6 rfl rfl

end VarInterval
